import Mathlib

set_option autoImplicit false

/-!
Verification of the RAG core of the `chatai` repository.

Text is modelled as a list of characters; machine strings appearing as opaque
keys (ids, filenames) are modelled as `String`.  Database tables are lists of
records, and each fallible external call is given an explicit outcome
parameter, so every operation is a pure function from the old state to the
new state and a result.
-/

namespace ChatAI

abbrev Text := List Char

/-!
## Chunker

Source `src/app/lib/utils.ts`, `splitTextIntoChunks`:

```
export function splitTextIntoChunks(text: string, chunkSize: number): string[] {
  const chunks: string[] = [];
  for (let i = 0; i < text.length; i += chunkSize) {
    chunks.push(text.slice(i, i + chunkSize));
  }
  return chunks;
}
```

The loop pushes `text.slice(i, i + chunkSize)` and advances `i` by
`chunkSize`.  We realise the loop by recursion on a fuel argument so that the
definition is structural (kernel-reducible); `text.length` units of fuel
always suffice because each iteration consumes at least one character when
`chunkSize ≥ 1`.  (For `chunkSize = 0` the source loop does not terminate, so
the claims only quantify over positive chunk sizes.)
-/

def splitGo (chunkSize : Nat) : Nat → Text → List Text
  | 0, _ => []
  | _, [] => []
  | fuel + 1, c :: rest =>
      (c :: rest.take (chunkSize - 1)) :: splitGo chunkSize fuel (rest.drop (chunkSize - 1))

def splitTextIntoChunks (text : Text) (chunkSize : Nat) : List Text :=
  splitGo chunkSize text.length text

/-!
## The chunking algorithm the specification describes

Spec section 4.2 describes a greedy boundary-seeking chunker: advance a
window of the target size; before cutting, search backward for the nearest
sentence terminator within the trailing half of the window; if none is found
there, fall back to the nearest whitespace boundary; if neither exists, cut
at the raw character boundary; each subsequent window starts at
`end − overlap` (clamped to at least 0).  This refinement definition follows
the specification's words, for comparison with `splitTextIntoChunks`, which
is what the source actually implements.
-/

def isSentenceTerminator (c : Char) : Bool := c = '.' || c = '!' || c = '?'

/-- Greatest index `j` with `lo ≤ j < hi` whose character satisfies `p`, or
`none` when no such index exists (a backward search over the range). -/
def lastIndexSatisfying (text : Text) (p : Char → Bool) (lo hi : Nat) : Option Nat :=
  (List.range' lo (hi - lo)).foldl
    (fun acc j => if p (text.getD j 'a') then some j else acc) none

def chunkSpecGo (text : Text) (targetSize overlap : Nat) : Nat → Nat → List Text
  | 0, _ => []
  | fuel + 1, start =>
      if start < text.length then
        let winEnd := min (start + targetSize) text.length
        if winEnd = text.length then
          [(text.drop start).take (winEnd - start)]
        else
          let cut :=
            match lastIndexSatisfying text isSentenceTerminator
                (start + targetSize / 2) winEnd with
            | some j => j + 1
            | none =>
                match lastIndexSatisfying text (fun c => c.isWhitespace) start winEnd with
                | some j => j + 1
                | none => winEnd
          ((text.drop start).take (cut - start))
            :: chunkSpecGo text targetSize overlap fuel (cut - overlap)
      else []

/-- Chunker following the specification's greedy boundary-seeking algorithm
(text length plus one is always enough fuel when each step makes progress). -/
def chunkSpec (text : Text) (targetSize overlap : Nat) : List Text :=
  chunkSpecGo text targetSize overlap (text.length + 1) 0

/-!
## Data model

Rows of the four tables touched by the core: `knowledge_base`,
`knowledge_base_chunks`, `chat_sessions` and `widget_configs`
(`src/supabase-schema.sql` plus the columns the route handlers write).
Embedding vectors are lists of rationals; the cosine-distance operator of the
database is an explicit function parameter of the search operations, since
the store treats it as opaque.
-/

structure ChatMessage where
  role : String
  content : String
deriving DecidableEq

structure ChatSessionRow where
  id : String
  client_id : String
  widget_id : Option String
  messages : List ChatMessage
deriving DecidableEq

structure WidgetConfigRow where
  id : String
  client_id : String
  is_active : Bool
deriving DecidableEq

structure KnowledgeBaseRow where
  id : String
  client_id : String
  filename : String
  content : Text
  embedding : List ℚ
  upload_status : String
deriving DecidableEq

structure KnowledgeBaseChunkRow where
  id : String
  document_id : String
  client_id : String
  content : Text
  chunk_index : Nat
  embedding : List ℚ
deriving DecidableEq

structure DBState where
  knowledge_base : List KnowledgeBaseRow
  knowledge_base_chunks : List KnowledgeBaseChunkRow
  chat_sessions : List ChatSessionRow
  widget_configs : List WidgetConfigRow
deriving DecidableEq

/-- Helper modelling PostgREST `.single()`: a value only when exactly one row
matches the filter. -/
def findSingle {α : Type} (p : α → Bool) (l : List α) : Option α :=
  match l.filter p with
  | [x] => some x
  | _ => none

/-- Helper modelling JavaScript `String.prototype.trim`, written with
structural recursion so that concrete instances compute. -/
def jsTrim (s : String) : String :=
  String.mk (((s.data.dropWhile Char.isWhitespace).reverse.dropWhile
    Char.isWhitespace).reverse)

/-!
## Similarity search

Source `src/supabase-schema.sql`, `search_knowledge_base`: filter rows by
client id and by `1 - (kb.embedding <=> query_embedding) > match_threshold`,
order by distance ascending (equivalently similarity descending) and limit to
`match_count` rows.  The `ORDER BY` is realised by insertion sort on the
similarity key; sorting by descending `1 - distance` orders exactly as the
SQL ascending-distance sort.
-/

structure SearchResultRow where
  content : Text
  filename : String
  similarity : ℚ
deriving DecidableEq

def insertByKeyDesc {α : Type} (key : α → ℚ) (r : α) : List α → List α
  | [] => [r]
  | s :: rest =>
      if key r ≥ key s then r :: s :: rest
      else s :: insertByKeyDesc key r rest

def sortByKeyDesc {α : Type} (key : α → ℚ) : List α → List α
  | [] => []
  | r :: rest => insertByKeyDesc key r (sortByKeyDesc key rest)

def search_knowledge_base (dist : List ℚ → List ℚ → ℚ) (kb : List KnowledgeBaseRow)
    (client_id : String) (query_embedding : List ℚ) (match_threshold : ℚ)
    (match_count : Nat) : List SearchResultRow :=
  (sortByKeyDesc (fun r => r.similarity)
    ((kb.filter (fun r => r.client_id == client_id
        && decide (match_threshold < 1 - dist r.embedding query_embedding))).map
      (fun r => ⟨r.content, r.filename, 1 - dist r.embedding query_embedding⟩))).take
    match_count

/-- Modelled from the spec: the `search_knowledge_base_chunks` SQL function
called by `searchKnowledgeBase` (`src/app/lib/openai.ts`) and by the
knowledge-base route is not part of the repository; only the analogous
`search_knowledge_base` function over the document table is.  Following the
specification (tenant-scoped nearest-neighbour search with a minimum
similarity, section 4.4), it is modelled exactly like `search_knowledge_base`
but over the chunk table, returning the matching chunk rows. -/
def search_knowledge_base_chunks (dist : List ℚ → List ℚ → ℚ)
    (chunks : List KnowledgeBaseChunkRow) (client_id : String)
    (query_embedding : List ℚ) (match_threshold : ℚ) (match_count : Nat) :
    List KnowledgeBaseChunkRow :=
  (sortByKeyDesc (fun ch => 1 - dist ch.embedding query_embedding)
    (chunks.filter (fun ch => ch.client_id == client_id
      && decide (match_threshold < 1 - dist ch.embedding query_embedding)))).take
    match_count

/-!
## Chat-session queries

Source `src/app/lib/helpers/database.ts` and `src/app/routes/api/chat.tsx`.
The session read in the chat loader filters by id and client id;
`updateSessionWithResponse` (database.ts lines 386-407) reads and updates
the session by id alone, with no tenant filter.
-/

def updateSessionWithResponse (σ : DBState) (sessionId response : String) : DBState :=
  match findSingle (fun s => s.id == sessionId) σ.chat_sessions with
  | none => σ
  | some _ =>
      { σ with chat_sessions := σ.chat_sessions.map (fun s =>
          if s.id == sessionId then
            { s with messages := s.messages ++ [⟨"assistant", response⟩] }
          else s) }

/-- Session read of the chat-history loader (`chat.tsx` lines 222-227):
filtered by id and client id. -/
def getSessionForClient (σ : DBState) (sessionId clientId : String) :
    Option ChatSessionRow :=
  findSingle (fun s => s.id == sessionId && s.client_id == clientId)
    σ.chat_sessions

/-- Widget-configuration query of the chat action (`chat.tsx` lines 28-33):
filtered by client id and widget id; an absent widget id is coerced to the
empty string (`widgetId || ''`).  The active flag is not part of the filter. -/
def chatWidgetLookup (σ : DBState) (clientId : String) (widgetId : Option String) :
    Option WidgetConfigRow :=
  findSingle (fun w => w.client_id == clientId && w.id == widgetId.getD "")
    σ.widget_configs

/-- Widget-configuration query of the public widget endpoint
(`src/app/routes/api/widget/$widgetId.tsx` lines 22-28): this one does
require the active flag. -/
def widgetPublicLookup (σ : DBState) (widgetId clientId : String) :
    Option WidgetConfigRow :=
  findSingle (fun w => w.id == widgetId && w.client_id == clientId && w.is_active)
    σ.widget_configs

/-!
## Streaming chat action

Source `src/app/routes/api/chat.tsx`.  A stream is a list of chunks, each
either the session sentinel or a content token, tagged by which enqueue site
produced it; `renderStreamChunk` gives the bytes actually written.  The
fallible external steps are parameters: `completionOk` is whether the
completion call succeeds, `newId` is the id produced by a successful session
insert (`none` when the insert fails), `tokens` are the model's stream
tokens, `response` is the full-text answer of the non-streaming path.
`ChatEvent` records the order of externally visible steps.
-/

inductive StreamChunk where
  | sessionSentinel (id : String)
  | token (s : String)
deriving DecidableEq

def renderStreamChunk : StreamChunk → String
  | .sessionSentinel id => "SESSION_ID:" ++ id ++ "\n"
  | .token s => s

inductive ChatEvent where
  | widgetLookupEv
  | retrievalCallEv
  | completionCallEv
  | sessionInsertEv
  | sentinelEmitEv (id : String)
  | tokenEmitEv (s : String)
  | sessionAppendEv
deriving DecidableEq

inductive ChatOutcome where
  | badRequest
  | widgetNotFound
  | upstreamError
  | streamed (chunks : List StreamChunk)
  | answered (response : String) (sessionId : Option String)
deriving DecidableEq

/-- Chunks emitted by `saveableStream` (`chat.tsx` lines 61-107): when no
session id was supplied and the pre-created session insert succeeded, the
sentinel for the new id is enqueued first; then every content token is
forwarded. -/
def saveableStreamChunks (supplied created : Option String)
    (tokens : List String) : List StreamChunk :=
  (match supplied, created with
   | none, some id => [StreamChunk.sessionSentinel id]
   | _, _ => []) ++ tokens.map StreamChunk.token

/-- The chat action (`chat.tsx` lines 18-197), covering both the streaming
and the non-streaming path.  Returns the ordered event trace, the final
database state and the outcome. -/
def chatAction (σ : DBState) (message clientId : String) (widgetId : Option String)
    (supplied : Option String) (stream : Bool) (completionOk : Bool)
    (tokens : List String) (response : String) (newId : Option String) :
    List ChatEvent × DBState × ChatOutcome :=
  if message == "" || clientId == "" then ([], σ, .badRequest)
  else
    match chatWidgetLookup σ clientId widgetId with
    | none => ([.widgetLookupEv], σ, .widgetNotFound)
    | some _ =>
        let preEvents : List ChatEvent :=
          [.widgetLookupEv, .retrievalCallEv, .retrievalCallEv, .completionCallEv]
        if ¬ completionOk then (preEvents, σ, .upstreamError)
        else if stream then
          let created : Option String := match supplied with
            | some _ => none
            | none => newId
          let saved : Option String := match supplied with
            | some s => some s
            | none => newId
          let σ₁ : DBState := match supplied, newId with
            | none, some id =>
                { σ with chat_sessions := σ.chat_sessions
                    ++ [⟨id, clientId, widgetId, [⟨"user", message⟩]⟩] }
            | _, _ => σ
          let fullResponse := String.join tokens
          let σ₂ : DBState := match saved with
            | some sid =>
                if jsTrim fullResponse ≠ "" then
                  updateSessionWithResponse σ₁ sid fullResponse
                else σ₁
            | none => σ₁
          let streamEvents : List ChatEvent :=
            (match supplied with | none => [ChatEvent.sessionInsertEv] | some _ => [])
            ++ (match supplied, created with
                | none, some id => [ChatEvent.sentinelEmitEv id]
                | _, _ => [])
            ++ tokens.map ChatEvent.tokenEmitEv
            ++ (match saved with
                | some _ =>
                    if jsTrim fullResponse ≠ "" then [ChatEvent.sessionAppendEv] else []
                | none => [])
          (preEvents ++ streamEvents, σ₂,
            .streamed (saveableStreamChunks supplied created tokens))
        else
          match supplied with
          | none =>
              match newId with
              | some id =>
                  (preEvents ++ [.sessionInsertEv],
                   { σ with chat_sessions := σ.chat_sessions
                       ++ [⟨id, clientId, widgetId,
                            [⟨"user", message⟩, ⟨"assistant", response⟩]⟩] },
                   .answered response (some id))
              | none => (preEvents ++ [.sessionInsertEv], σ, .answered response none)
          | some sid =>
              match findSingle (fun s => s.id == sid) σ.chat_sessions with
              | some _ =>
                  (preEvents ++ [.sessionAppendEv],
                   { σ with chat_sessions := σ.chat_sessions.map (fun s =>
                       if s.id == sid then
                         { s with messages := s.messages
                             ++ [⟨"user", message⟩, ⟨"assistant", response⟩] }
                       else s) },
                   .answered response (some sid))
              | none => (preEvents, σ, .answered response (some sid))

/-!
## Text extraction and document upload

Source `src/app/lib/utils.ts` (`extractTextFromFile`, `isValidFileType`,
`isValidFileSize`) and `src/app/routes/api/knowledge-base.tsx` (the upload
handler).  `pdfPages` is the page list returned by the PDF loader, `none`
when the loader throws.
-/

def allowedFileTypes : List String :=
  ["application/pdf", "text/plain", "application/msword",
   "application/vnd.openxmlformats-officedocument.wordprocessingml.document"]

def isValidFileType (fileType : String) : Bool :=
  allowedFileTypes.contains fileType

def isValidFileSize (fileSize : Nat) : Bool :=
  fileSize ≤ 10 * 1024 * 1024

def extractTextFromFile (pdfPages : Option (List Text))
    (fileName fileType : String) (textContent : Text) : Text :=
  if fileType == "text/plain" then textContent
  else if fileType == "application/pdf" then
    match pdfPages with
    | some pages =>
        let extractedText := List.intercalate "\n\n".data pages
        if extractedText == [] then ("Content from " ++ fileName).data
        else extractedText
    | none => ("Content from " ++ fileName ++ " (PDF extraction failed)").data
  else ("Content from " ++ fileName).data

inductive UploadOutcome where
  | errorBadType
  | errorTooBig
  | errorExtract
  | errorEmpty
  | errorNoChunks
  | errorDocInsert
  | errorEmbedding
  | completedDoc (id : String) (filename : String) (chunk_count : Nat)
deriving DecidableEq

/-- The upload handler (`knowledge-base.tsx` lines 217-372): validate,
extract, chunk, insert the document row with status `processing`, embed every
chunk, bulk-insert the chunk rows in one statement, then mark the document
`completed`; any embedding failure or a failed chunk insert lands in the
catch block, which marks the document `failed` (the single bulk insert
itself is atomic, so a failed insert writes no rows). -/
def uploadAction (embed : Text → Option (List ℚ)) (σ : DBState)
    (clientId fileName fileType : String) (fileSize : Nat) (documentId : String)
    (chunkIds : Nat → String) (docInsertOk chunkInsertOk extractOk : Bool)
    (pdfPages : Option (List Text)) (textContent : Text) :
    DBState × UploadOutcome :=
  if ¬ isValidFileType fileType then (σ, .errorBadType)
  else if ¬ isValidFileSize fileSize then (σ, .errorTooBig)
  else if ¬ extractOk then (σ, .errorExtract)
  else
    let extractedText := extractTextFromFile pdfPages fileName fileType textContent
    if extractedText.all Char.isWhitespace then (σ, .errorEmpty)
    else
      let chunks := splitTextIntoChunks extractedText 1000
      if chunks.length == 0 then (σ, .errorNoChunks)
      else if ¬ docInsertOk then (σ, .errorDocInsert)
      else
        let σ₁ : DBState :=
          { σ with knowledge_base := σ.knowledge_base
              ++ [⟨documentId, clientId, fileName, extractedText, [], "processing"⟩] }
        let markFailed : DBState :=
          { σ₁ with knowledge_base := σ₁.knowledge_base.map (fun d =>
              if d.id == documentId then { d with upload_status := "failed" } else d) }
        if (chunks.map embed).any (fun e => e.isNone) then (markFailed, .errorEmbedding)
        else if ¬ chunkInsertOk then (markFailed, .errorEmbedding)
        else
          let rows := chunks.enum.map (fun p =>
            (⟨chunkIds p.1, documentId, clientId, p.2, p.1,
              (embed p.2).getD []⟩ : KnowledgeBaseChunkRow))
          ({ σ₁ with
              knowledge_base_chunks := σ₁.knowledge_base_chunks ++ rows,
              knowledge_base := σ₁.knowledge_base.map (fun d =>
                if d.id == documentId then { d with upload_status := "completed" }
                else d) },
           .completedDoc documentId fileName chunks.length)

/-!
## Document deletion

Source `src/app/lib/openai.ts` (`deleteDocument`, lines 564-587) and the
delete case of the upload route (`knowledge-base.tsx` lines 374-433).
`deleteDocument` issues a single delete on the `knowledge_base` table,
filtered by client id and filename; the repository's schema declares no
chunk table, hence no cascade, so chunk rows are untouched.  The route
variant resolves the document id, deletes its chunks, then deletes the
document — two separate statements.
-/

def deleteDocument (σ : DBState) (clientId fileName : String) (delOk : Bool) :
    DBState × Bool :=
  if ¬ delOk then (σ, false)
  else
    ({ σ with knowledge_base := σ.knowledge_base.filter (fun d =>
        ¬ (d.client_id == clientId && d.filename == fileName)) }, true)

inductive DeleteOutcome where
  | notFound
  | chunkDeleteError
  | docDeleteError
  | deleted
deriving DecidableEq

def routeDeleteAction (σ : DBState) (clientId fileName : String)
    (chunkDelOk docDelOk : Bool) : DBState × DeleteOutcome :=
  match findSingle (fun d => d.filename == fileName && d.client_id == clientId)
      σ.knowledge_base with
  | none => (σ, .notFound)
  | some doc =>
      if ¬ chunkDelOk then (σ, .chunkDeleteError)
      else
        let σ₁ : DBState :=
          { σ with knowledge_base_chunks := σ.knowledge_base_chunks.filter (fun ch =>
              ¬ (ch.document_id == doc.id && ch.client_id == clientId)) }
        if ¬ docDelOk then (σ₁, .docDeleteError)
        else
          ({ σ₁ with knowledge_base := σ₁.knowledge_base.filter (fun d =>
              ¬ (d.id == doc.id && d.client_id == clientId)) }, .deleted)

/-- `storeDocument` from `src/app/lib/openai.ts` (the variant without the
retrieval-chain abstraction, lines 677-746): embed the head of the content,
insert the document row, split the content into chunks of 1000, embed every
chunk, then bulk-insert all chunk rows in one statement; any failure is
caught and reported as an unsuccessful result. -/
def storeDocument (embed : Text → Option (List ℚ)) (σ : DBState)
    (clientId filename : String) (content : Text) (documentId : String)
    (chunkIds : Nat → String) (docInsertOk chunkInsertOk : Bool) :
    DBState × Bool :=
  match embed (content.take 1000) with
  | none => (σ, false)
  | some docEmb =>
      if ¬ docInsertOk then (σ, false)
      else
        let σ₁ : DBState :=
          { σ with knowledge_base := σ.knowledge_base
              ++ [⟨documentId, clientId, filename, content, docEmb, ""⟩] }
        let chunks := splitTextIntoChunks content 1000
        if (chunks.map embed).any (fun e => e.isNone) then (σ₁, false)
        else if ¬ chunkInsertOk then (σ₁, false)
        else
          ({ σ₁ with knowledge_base_chunks := σ₁.knowledge_base_chunks
              ++ chunks.enum.map (fun p =>
                (⟨chunkIds p.1, documentId, clientId, p.2, p.1,
                  (embed p.2).getD []⟩ : KnowledgeBaseChunkRow)) }, true)

/-!
## Concrete states used by witnesses and counterexamples
-/

def inactiveWidgetState : DBState := ⟨[], [], [], [⟨"w1", "A", false⟩]⟩

def activeWidgetState : DBState := ⟨[], [], [], [⟨"w1", "A", true⟩]⟩

def suppliedSessionState : DBState :=
  ⟨[], [], [⟨"s1", "A", some "w1", []⟩], [⟨"w1", "A", true⟩]⟩

def crossTenantState : DBState :=
  ⟨[], [], [⟨"s1", "B", some "w0", [⟨"user", "old question"⟩]⟩],
   [⟨"w1", "A", true⟩]⟩

def deleteTestState : DBState :=
  ⟨[⟨"d1", "A", "f.txt", "x".data, [], "completed"⟩],
   [⟨"c1", "d1", "A", "x".data, 0, []⟩], [], []⟩

/-!
## Lemmas about the chunker
-/

/-- Unfolding lemma: with enough fuel and a positive chunk size, one loop
iteration takes `chunkSize` characters and continues on the rest. -/
theorem splitGo_eq_cons {chunkSize fuel : Nat} (hsize : 0 < chunkSize)
    {text : Text} (htext : text ≠ []) (hfuel : text.length ≤ fuel) :
    splitGo chunkSize fuel text
      = text.take chunkSize :: splitGo chunkSize (fuel - 1) (text.drop chunkSize) := by
  obtain ⟨k, rfl⟩ : ∃ k, chunkSize = k + 1 := ⟨chunkSize - 1, by omega⟩
  obtain ⟨c, rest, rfl⟩ : ∃ c rest, text = c :: rest := by
    cases text with
    | nil => exact absurd rfl htext
    | cons c rest => exact ⟨c, rest, rfl⟩
  obtain ⟨f, rfl⟩ : ∃ f, fuel = f + 1 := by
    cases fuel with
    | zero => simp at hfuel
    | succ f => exact ⟨f, rfl⟩
  simp [splitGo]

/-- Fuel irrelevance: any fuel at least the text length gives the same chunks. -/
theorem splitGo_fuel {chunkSize : Nat} (hsize : 0 < chunkSize) :
    ∀ fuel₁ fuel₂ (text : Text), text.length ≤ fuel₁ → text.length ≤ fuel₂ →
      splitGo chunkSize fuel₁ text = splitGo chunkSize fuel₂ text := by
  intro fuel₁
  induction fuel₁ with
  | zero =>
      intro fuel₂ text h₁ _
      have : text = [] := List.eq_nil_of_length_eq_zero (by omega)
      subst this
      cases fuel₂ <;> simp [splitGo]
  | succ f ih =>
      intro fuel₂ text h₁ h₂
      cases text with
      | nil => cases fuel₂ <;> simp [splitGo]
      | cons c rest =>
          rw [splitGo_eq_cons hsize (by simp) h₁, splitGo_eq_cons hsize (by simp) h₂]
          simp only [Nat.add_sub_cancel]
          have hlen : ((c :: rest).drop chunkSize).length ≤ f := by
            simp [List.length_drop]
            simp at h₁
            omega
          have hlen₂ : ((c :: rest).drop chunkSize).length ≤ fuel₂ - 1 := by
            simp [List.length_drop]
            simp at h₂
            omega
          rw [ih (fuel₂ - 1) _ hlen hlen₂]

/-- Recursion equation for `splitTextIntoChunks` at positive chunk size. -/
theorem splitTextIntoChunks_cons {chunkSize : Nat} (hsize : 0 < chunkSize)
    {text : Text} (htext : text ≠ []) :
    splitTextIntoChunks text chunkSize
      = text.take chunkSize :: splitTextIntoChunks (text.drop chunkSize) chunkSize := by
  unfold splitTextIntoChunks
  rw [splitGo_eq_cons hsize htext (Nat.le_refl _)]
  exact congrArg _ (splitGo_fuel hsize _ _ _ (by simp [List.length_drop]; omega)
    (Nat.le_refl _))

theorem splitTextIntoChunks_nil (chunkSize : Nat) :
    splitTextIntoChunks [] chunkSize = [] := by
  cases chunkSize <;> rfl

theorem flatten_splitTextIntoChunks_aux {chunkSize : Nat} (hsize : 0 < chunkSize) :
    ∀ (n : Nat) (text : Text), text.length ≤ n →
      (splitTextIntoChunks text chunkSize).flatten = text := by
  intro n
  induction n with
  | zero =>
      intro text h
      have : text = [] := List.eq_nil_of_length_eq_zero (by omega)
      subst this
      simp [splitTextIntoChunks_nil]
  | succ n ih =>
      intro text h
      cases text with
      | nil => simp [splitTextIntoChunks_nil]
      | cons c rest =>
          rw [splitTextIntoChunks_cons hsize (by simp)]
          simp only [List.flatten_cons]
          rw [ih ((c :: rest).drop chunkSize) (by simp [List.length_drop]; simp at h; omega)]
          exact List.take_append_drop _ _

/-- Concatenating the chunks restores the input text exactly. -/
theorem flatten_splitTextIntoChunks {chunkSize : Nat} (hsize : 0 < chunkSize)
    (text : Text) : (splitTextIntoChunks text chunkSize).flatten = text :=
  flatten_splitTextIntoChunks_aux hsize text.length text (Nat.le_refl _)

theorem length_splitTextIntoChunks_aux {chunkSize : Nat} (hsize : 0 < chunkSize) :
    ∀ (n : Nat) (text : Text), text.length ≤ n →
      (splitTextIntoChunks text chunkSize).length
        = (text.length + chunkSize - 1) / chunkSize := by
  intro n
  induction n with
  | zero =>
      intro text h
      have : text = [] := List.eq_nil_of_length_eq_zero (by omega)
      subst this
      rw [splitTextIntoChunks_nil]
      simp only [List.length_nil, Nat.zero_add]
      rw [Nat.div_eq_of_lt (by omega)]
  | succ n ih =>
      intro text h
      cases text with
      | nil =>
          rw [splitTextIntoChunks_nil]
          simp only [List.length_nil, Nat.zero_add]
          rw [Nat.div_eq_of_lt (by omega)]
      | cons c rest =>
          rw [splitTextIntoChunks_cons hsize (by simp), List.length_cons,
            ih ((c :: rest).drop chunkSize) (by simp [List.length_drop]; simp at h; omega)]
          simp only [List.length_drop, List.length_cons]
          rcases Nat.lt_or_ge (rest.length + 1) chunkSize with hlt | hge
          · have e1 : rest.length + 1 - chunkSize + chunkSize - 1 = chunkSize - 1 := by omega
            have e2 : rest.length + 1 + chunkSize - 1 = rest.length + chunkSize := by omega
            rw [e1, e2, Nat.add_div_right _ hsize, Nat.div_eq_of_lt (by omega),
              Nat.div_eq_of_lt (by omega)]
          · have e1 : rest.length + 1 - chunkSize + chunkSize - 1 = rest.length := by omega
            have e2 : rest.length + 1 + chunkSize - 1 = rest.length + chunkSize := by omega
            rw [e1, e2, Nat.add_div_right _ hsize]

/-- Number of chunks is the ceiling of the text length over the chunk size. -/
theorem length_splitTextIntoChunks {chunkSize : Nat} (hsize : 0 < chunkSize)
    (text : Text) :
    (splitTextIntoChunks text chunkSize).length
      = (text.length + chunkSize - 1) / chunkSize :=
  length_splitTextIntoChunks_aux hsize text.length text (Nat.le_refl _)

theorem getElem?_splitTextIntoChunks_aux {chunkSize : Nat} (hsize : 0 < chunkSize) :
    ∀ (n : Nat) (text : Text), text.length ≤ n →
      ∀ (i : Nat), i < (splitTextIntoChunks text chunkSize).length →
        (splitTextIntoChunks text chunkSize)[i]?
          = some ((text.drop (i * chunkSize)).take chunkSize) := by
  intro n
  induction n with
  | zero =>
      intro text h i hi
      have : text = [] := List.eq_nil_of_length_eq_zero (by omega)
      subst this
      rw [splitTextIntoChunks_nil] at hi
      exact absurd hi (by simp)
  | succ n ih =>
      intro text h i hi
      cases text with
      | nil =>
          rw [splitTextIntoChunks_nil] at hi
          exact absurd hi (by simp)
      | cons c rest =>
          rw [splitTextIntoChunks_cons hsize (by simp)] at hi ⊢
          cases i with
          | zero => simp
          | succ i =>
              simp only [List.getElem?_cons_succ]
              rw [ih ((c :: rest).drop chunkSize)
                (by simp [List.length_drop]; simp at h; omega) i
                (by simpa using hi)]
              rw [List.drop_drop]
              have e : chunkSize + i * chunkSize = (i + 1) * chunkSize := by ring
              rw [e]

/-- Every chunk is exactly the raw slice of the input starting at its index
times the chunk size. -/
theorem getElem?_splitTextIntoChunks {chunkSize : Nat} (hsize : 0 < chunkSize)
    (text : Text) (i : Nat) (hi : i < (splitTextIntoChunks text chunkSize).length) :
    (splitTextIntoChunks text chunkSize)[i]?
      = some ((text.drop (i * chunkSize)).take chunkSize) :=
  getElem?_splitTextIntoChunks_aux hsize text.length text (Nat.le_refl _) i hi

/-!
## Claim C10: the chunker is an exact fixed-size partition
-/

/-- C10: for every text and chunk size > 0, `splitTextIntoChunks` returns
exactly the ceiling of length over chunk size many segments; every segment is
the raw contiguous slice starting at its index times the chunk size (hence
segments are contiguous and non-overlapping, their in-order concatenation is
the input, and whitespace-only segments are emitted rather than dropped);
every segment except possibly the last has length exactly the chunk size;
and the empty text yields the empty list. -/
theorem splitTextIntoChunks_exact_partition (text : Text) (chunkSize : Nat)
    (hsize : 0 < chunkSize) :
    (splitTextIntoChunks text chunkSize).length
        = (text.length + chunkSize - 1) / chunkSize
    ∧ (splitTextIntoChunks text chunkSize).flatten = text
    ∧ (∀ i, i < (splitTextIntoChunks text chunkSize).length →
        (splitTextIntoChunks text chunkSize)[i]?
          = some ((text.drop (i * chunkSize)).take chunkSize))
    ∧ (∀ i ch, i + 1 < (splitTextIntoChunks text chunkSize).length →
        (splitTextIntoChunks text chunkSize)[i]? = some ch →
        ch.length = chunkSize)
    ∧ (text = [] → splitTextIntoChunks text chunkSize = []) := by
  refine ⟨length_splitTextIntoChunks hsize text,
    flatten_splitTextIntoChunks hsize text,
    fun i hi => getElem?_splitTextIntoChunks hsize text i hi, ?_, ?_⟩
  · intro i ch hi hch
    have hi' : i < (splitTextIntoChunks text chunkSize).length := by omega
    rw [getElem?_splitTextIntoChunks hsize text i hi'] at hch
    have hch' : ch = (text.drop (i * chunkSize)).take chunkSize := by
      injection hch with h
      exact h.symm
    subst hch'
    have hlen := length_splitTextIntoChunks hsize text
    rw [hlen] at hi
    have h2 : i + 2 ≤ (text.length + chunkSize - 1) / chunkSize := by omega
    have h3 : (i + 2) * chunkSize ≤ text.length + chunkSize - 1 :=
      (Nat.le_div_iff_mul_le hsize).mp h2
    have h4 : (i + 2) * chunkSize = i * chunkSize + 2 * chunkSize := by ring
    rw [h4] at h3
    simp only [List.length_take, List.length_drop]
    omega
  · intro h
    subst h
    exact splitTextIntoChunks_nil _

/-- Witness for C10 at a concrete text and chunk size. -/
theorem splitTextIntoChunks_exact_partition_witness :
    0 < 3
    ∧ ((splitTextIntoChunks "abcdefg".data 3).length
          = ("abcdefg".data.length + 3 - 1) / 3
        ∧ (splitTextIntoChunks "abcdefg".data 3).flatten = "abcdefg".data
        ∧ (∀ i, i < (splitTextIntoChunks "abcdefg".data 3).length →
            (splitTextIntoChunks "abcdefg".data 3)[i]?
              = some (("abcdefg".data.drop (i * 3)).take 3))
        ∧ (∀ i ch, i + 1 < (splitTextIntoChunks "abcdefg".data 3).length →
            (splitTextIntoChunks "abcdefg".data 3)[i]? = some ch →
            ch.length = 3)
        ∧ ("abcdefg".data = [] → splitTextIntoChunks "abcdefg".data 3 = [])) :=
  ⟨by decide, splitTextIntoChunks_exact_partition "abcdefg".data 3 (by decide)⟩

/-!
## Claim C3: the chunker is not the boundary-seeking algorithm
-/

/-- C3 counterexample: on the text `Hello. World extra` with target size 10,
the trailing half of the first window (indices 5 through 9) contains the
sentence terminator at index 5, yet the implemented chunker cuts at the raw
boundary, producing `Hello. Wor`; the boundary-seeking algorithm the claim
describes produces different chunks, with any overlap (overlap 3 and
overlap 0 shown). -/
theorem chunker_not_boundary_seeking :
    splitTextIntoChunks "Hello. World extra".data 10
        = ["Hello. Wor".data, "ld extra".data]
    ∧ (chunkSpec "Hello. World extra".data 10 3).head? = some "Hello.".data
    ∧ chunkSpec "Hello. World extra".data 10 3
        ≠ splitTextIntoChunks "Hello. World extra".data 10
    ∧ chunkSpec "Hello. World extra".data 10 0
        ≠ splitTextIntoChunks "Hello. World extra".data 10
    ∧ isSentenceTerminator ("Hello. World extra".data.getD 5 'a') = true := by
  decide

/-- C3 (amended): the chunker performs no boundary seeking and no
overlapping: for every text and chunk size > 0, the i-th chunk is exactly the
raw slice from `i * chunkSize` to `(i+1) * chunkSize`, so every cut is at the
raw character boundary and each subsequent window starts exactly at the
previous window's end (overlap zero). -/
theorem splitTextIntoChunks_raw_windows (text : Text) (chunkSize : Nat)
    (hsize : 0 < chunkSize) :
    splitTextIntoChunks text chunkSize
      = (List.range (splitTextIntoChunks text chunkSize).length).map
          (fun i => (text.drop (i * chunkSize)).take chunkSize) := by
  apply List.ext_getElem?
  intro i
  by_cases hi : i < (splitTextIntoChunks text chunkSize).length
  · rw [getElem?_splitTextIntoChunks hsize text i hi, List.getElem?_map,
      List.getElem?_range hi]
    rfl
  · rw [List.getElem?_eq_none (by omega), List.getElem?_eq_none (by simp; omega)]

/-- Witness for the amended C3 at a concrete text and chunk size. -/
theorem splitTextIntoChunks_raw_windows_witness :
    0 < 4
    ∧ splitTextIntoChunks "Hello. Wor".data 4
        = (List.range (splitTextIntoChunks "Hello. Wor".data 4).length).map
            (fun i => ("Hello. Wor".data.drop (i * 4)).take 4) :=
  ⟨by decide, splitTextIntoChunks_raw_windows "Hello. Wor".data 4 (by decide)⟩

/-!
## Helper lemmas about sorting and single-row lookup
-/

theorem mem_insertByKeyDesc {α : Type} (key : α → ℚ) (r a : α) (l : List α) :
    a ∈ insertByKeyDesc key r l ↔ a = r ∨ a ∈ l := by
  induction l with
  | nil => simp [insertByKeyDesc]
  | cons s rest ih =>
      simp only [insertByKeyDesc]
      by_cases h : key r ≥ key s
      · simp [h]
      · simp only [h, if_false, List.mem_cons, ih]
        tauto

theorem mem_sortByKeyDesc {α : Type} (key : α → ℚ) (a : α) (l : List α) :
    a ∈ sortByKeyDesc key l ↔ a ∈ l := by
  induction l with
  | nil => simp [sortByKeyDesc]
  | cons s rest ih =>
      simp only [sortByKeyDesc, mem_insertByKeyDesc, List.mem_cons, ih]

theorem findSingle_some {α : Type} {p : α → Bool} {l : List α} {x : α}
    (h : findSingle p l = some x) : x ∈ l ∧ p x = true := by
  unfold findSingle at h
  split at h
  · next y hf =>
      have hx : y = x := by injection h
      subst hx
      have hy : y ∈ l.filter p := by rw [hf]; exact List.mem_singleton_self y
      exact ⟨(List.mem_filter.mp hy).1, (List.mem_filter.mp hy).2⟩
  · cases h

/-!
## Claim C4: the similarity threshold is enforced
-/

/-- C4: no row returned by the knowledge-base similarity search has a
similarity score strictly below the threshold: the search filters on
`match_threshold < similarity` before ordering and limiting, so sub-threshold
rows are excluded entirely, for every distance function, table, tenant,
query embedding, threshold and result count. -/
theorem search_respects_threshold (dist : List ℚ → List ℚ → ℚ)
    (kb : List KnowledgeBaseRow) (clientId : String) (q : List ℚ) (θ : ℚ)
    (k : Nat) (r : SearchResultRow)
    (h : r ∈ search_knowledge_base dist kb clientId q θ k) :
    ¬ r.similarity < θ := by
  unfold search_knowledge_base at h
  have h1 := List.mem_of_mem_take h
  rw [mem_sortByKeyDesc] at h1
  obtain ⟨row, hrow, hr⟩ := List.mem_map.mp h1
  have hcond := (List.mem_filter.mp hrow).2
  simp only [Bool.and_eq_true, decide_eq_true_eq] at hcond
  have hsim : r.similarity = 1 - dist row.embedding q := by rw [← hr]
  rw [hsim]
  exact not_lt_of_gt hcond.2

/-- Witness for C4 at a concrete table and query. -/
theorem search_respects_threshold_witness :
    ¬ (⟨"hello".data, "f.txt", (1 : ℚ)⟩ : SearchResultRow).similarity < 0 :=
  search_respects_threshold (fun _ _ => 0)
    [⟨"d1", "A", "f.txt", "hello".data, [0], "completed"⟩] "A" [] 0 5
    ⟨"hello".data, "f.txt", 1⟩
    (by simp [search_knowledge_base, sortByKeyDesc, insertByKeyDesc])

/-!
## Claim C5: streaming session sentinel
-/

theorem map_token_no_sentinel (tokens : List String) (i : Nat) (id : String) :
    (tokens.map StreamChunk.token)[i]? ≠ some (StreamChunk.sessionSentinel id) := by
  rw [List.getElem?_map]
  cases tokens[i]? <;> simp

/-- C5: when no session id was supplied and the pre-created session insert
succeeded, the very first chunk of the stream is the single sentinel line —
the fixed prefix, the new session id, and a newline; a sentinel chunk can
only ever occur at position zero (so it is never emitted after a content
token and never duplicated), and it occurs only when no session id was
supplied and the insert succeeded (in particular never for a
caller-supplied session). -/
theorem streaming_sentinel_correct (supplied created : Option String)
    (tokens : List String) :
    (∀ id, supplied = none → created = some id →
        saveableStreamChunks supplied created tokens
            = StreamChunk.sessionSentinel id :: tokens.map StreamChunk.token
        ∧ (saveableStreamChunks supplied created tokens).head?
            = some (StreamChunk.sessionSentinel id)
        ∧ renderStreamChunk (StreamChunk.sessionSentinel id)
            = "SESSION_ID:" ++ id ++ "\n")
    ∧ (∀ i id,
        (saveableStreamChunks supplied created tokens)[i]?
            = some (StreamChunk.sessionSentinel id) →
        i = 0 ∧ supplied = none ∧ created = some id) := by
  constructor
  · rintro id rfl rfl
    exact ⟨rfl, rfl, rfl⟩
  · intro i id h
    match hs : supplied, hc : created with
    | some s, c =>
        simp only [saveableStreamChunks, List.nil_append] at h
        exact absurd h (map_token_no_sentinel tokens i id)
    | none, none =>
        simp only [saveableStreamChunks, List.nil_append] at h
        exact absurd h (map_token_no_sentinel tokens i id)
    | none, some cid =>
        simp only [saveableStreamChunks, List.cons_append, List.nil_append] at h
        cases i with
        | zero =>
            simp only [List.getElem?_cons_zero] at h
            have : StreamChunk.sessionSentinel cid = StreamChunk.sessionSentinel id := by
              injection h
            have hid : cid = id := by injection this
            exact ⟨rfl, rfl, by rw [hid]⟩
        | succ i =>
            simp only [List.getElem?_cons_succ] at h
            exact absurd h (map_token_no_sentinel tokens i id)

/-- Witness for C5 at a concrete new session and token list. -/
theorem streaming_sentinel_correct_witness :
    (saveableStreamChunks none (some "s9") ["a", "b"]).head?
        = some (StreamChunk.sessionSentinel "s9")
    ∧ (0 = 0 ∧ (none : Option String) = none
        ∧ (some "s9" : Option String) = some "s9") :=
  ⟨((streaming_sentinel_correct none (some "s9") ["a", "b"]).1 "s9" rfl rfl).2.1,
   (streaming_sentinel_correct none (some "s9") ["a", "b"]).2 0 "s9" (by decide)⟩

/-!
## Claim C2: embedding failure persists no chunks
-/

/-- C2: if the embedding step fails for any chunk of the uploaded document,
the chunk table after the upload is exactly the chunk table before it — zero
chunks of the document are persisted — so every subsequent similarity search
over chunks returns exactly what it returned before the ingestion began, and
in particular no chunk carrying the new document id exists; the same holds
for the `storeDocument` ingestion path, whose single bulk chunk insert also
happens only after every chunk embedding has succeeded. -/
theorem upload_embedding_failure_atomic (embed : Text → Option (List ℚ))
    (σ : DBState) (clientId fileName fileType : String) (fileSize : Nat)
    (documentId : String) (chunkIds : Nat → String)
    (docInsertOk chunkInsertOk extractOk : Bool) (pdfPages : Option (List Text))
    (textContent : Text)
    (hfail : ∃ ch ∈ splitTextIntoChunks
        (extractTextFromFile pdfPages fileName fileType textContent) 1000,
        embed ch = none) :
    ((uploadAction embed σ clientId fileName fileType fileSize documentId
        chunkIds docInsertOk chunkInsertOk extractOk pdfPages
        textContent).1).knowledge_base_chunks = σ.knowledge_base_chunks
    ∧ (∀ dist q θ k c,
        search_knowledge_base_chunks dist
          ((uploadAction embed σ clientId fileName fileType fileSize documentId
              chunkIds docInsertOk chunkInsertOk extractOk pdfPages
              textContent).1).knowledge_base_chunks c q θ k
          = search_knowledge_base_chunks dist σ.knowledge_base_chunks c q θ k)
    ∧ ((∀ ch ∈ σ.knowledge_base_chunks, ch.document_id ≠ documentId) →
        ∀ ch ∈ ((uploadAction embed σ clientId fileName fileType fileSize
            documentId chunkIds docInsertOk chunkInsertOk extractOk pdfPages
            textContent).1).knowledge_base_chunks, ch.document_id ≠ documentId)
    ∧ (∀ content documentId2 chunkIds2 dOk2 cOk2,
        (∃ ch ∈ splitTextIntoChunks content 1000, embed ch = none) →
        ((storeDocument embed σ clientId fileName content documentId2 chunkIds2
            dOk2 cOk2).1).knowledge_base_chunks = σ.knowledge_base_chunks) := by
  obtain ⟨ch, hch, hnone⟩ := hfail
  have hany : ((splitTextIntoChunks
      (extractTextFromFile pdfPages fileName fileType textContent) 1000).map
        embed).any (fun e => e.isNone) = true := by
    rw [List.any_eq_true]
    exact ⟨none, List.mem_map.mpr ⟨ch, hch, hnone⟩, rfl⟩
  have hmain : ((uploadAction embed σ clientId fileName fileType fileSize
      documentId chunkIds docInsertOk chunkInsertOk extractOk pdfPages
      textContent).1).knowledge_base_chunks = σ.knowledge_base_chunks := by
    unfold uploadAction
    simp only [hany]
    split_ifs <;> rfl
  refine ⟨hmain, fun dist q θ k c => by rw [hmain], ?_, ?_⟩
  · intro hfresh ch' hch'
    rw [hmain] at hch'
    exact hfresh ch' hch'
  · rintro content did2 cids2 dOk2 cOk2 ⟨ch2, hch2, hnone2⟩
    have hany2 : ((splitTextIntoChunks content 1000).map embed).any
        (fun e => e.isNone) = true := by
      rw [List.any_eq_true]
      exact ⟨none, List.mem_map.mpr ⟨ch2, hch2, hnone2⟩, rfl⟩
    unfold storeDocument
    cases hemb : embed (content.take 1000) with
    | none => rfl
    | some docEmb =>
        simp only [hany2]
        split_ifs <;> rfl

/-- Witness for C2: a failing embedder on a one-chunk document leaves the
chunk table of the empty state empty. -/
theorem upload_embedding_failure_atomic_witness :
    (∃ ch ∈ splitTextIntoChunks
        (extractTextFromFile none "a.txt" "text/plain" "hi".data) 1000,
        (fun _ : Text => (none : Option (List ℚ))) ch = none)
    ∧ ((uploadAction (fun _ => none) ⟨[], [], [], []⟩ "A" "a.txt" "text/plain"
        2 "d1" (fun _ => "c1") true true true none
        "hi".data).1).knowledge_base_chunks = [] :=
  ⟨⟨"hi".data, by decide⟩,
   (upload_embedding_failure_atomic (fun _ => none) ⟨[], [], [], []⟩ "A" "a.txt"
      "text/plain" 2 "d1" (fun _ => "c1") true true true none "hi".data
      ⟨"hi".data, by decide⟩).1⟩

/-!
## Claim C6: the widget gate
-/

/-- C6 counterexample: the widget configuration for tenant `A` and widget
`w1` exists but its active flag is false; the chat entry point nevertheless
proceeds past the widget check into retrieval, completion and streaming,
instead of failing with the widget-not-found error. -/
theorem chat_ignores_active_flag :
    (inactiveWidgetState.widget_configs.map (fun w => w.is_active)) = [false]
    ∧ (chatAction inactiveWidgetState "hi" "A" (some "w1") none true true
        ["ok"] "" (some "n1")).2.2
        = ChatOutcome.streamed
            [StreamChunk.sessionSentinel "n1", StreamChunk.token "ok"]
    ∧ (chatAction inactiveWidgetState "hi" "A" (some "w1") none true true
        ["ok"] "" (some "n1")).2.2
        ≠ ChatOutcome.widgetNotFound := by
  decide

set_option linter.unnecessarySeqFocus false in
/-- C6 (amended): the chat entry point fails with widget-not-found exactly
when no configuration row for the (tenant, widget) pair exists, and in that
case it stops after the widget lookup, before any retrieval or
completion-model call, leaving the state unchanged; when a configuration row
exists the chat proceeds regardless of its active flag — the flag is not
part of the chat action's filter (only the public widget read endpoint
checks it). -/
theorem widget_gate (σ : DBState) (message clientId : String)
    (widgetId supplied : Option String) (stream completionOk : Bool)
    (tokens : List String) (response : String) (newId : Option String) :
    (message ≠ "" → clientId ≠ "" →
      chatWidgetLookup σ clientId widgetId = none →
        chatAction σ message clientId widgetId supplied stream completionOk
          tokens response newId
          = ([ChatEvent.widgetLookupEv], σ, ChatOutcome.widgetNotFound))
    ∧ (∀ cfg, chatWidgetLookup σ clientId widgetId = some cfg →
        (chatAction σ message clientId widgetId supplied stream completionOk
          tokens response newId).2.2 ≠ ChatOutcome.widgetNotFound) := by
  constructor
  · intro hm hc hw
    unfold chatAction
    have hb : (message == "" || clientId == "") = false := by
      simp [hm, hc]
    rw [hb, hw]
    simp
  · intro cfg hw
    unfold chatAction
    cases hb : (message == "" || clientId == "") with
    | true => simp [hb]
    | false =>
        rw [hw]
        simp only [Bool.false_eq_true, if_false]
        split_ifs <;> (try simp) <;> (repeat' split) <;> simp

/-- Witness for the amended C6: a missing widget row gives the 404 outcome
with no further events, while the inactive widget row proceeds. -/
theorem widget_gate_witness :
    chatAction ⟨[], [], [], []⟩ "hi" "A" (some "w1") none true true [] "" none
        = ([ChatEvent.widgetLookupEv], ⟨[], [], [], []⟩, ChatOutcome.widgetNotFound)
    ∧ (chatAction inactiveWidgetState "hi" "A" (some "w1") none true true
        [] "" none).2.2 ≠ ChatOutcome.widgetNotFound :=
  ⟨(widget_gate ⟨[], [], [], []⟩ "hi" "A" (some "w1") none true true [] "" none).1
      (by decide) (by decide) (by decide),
   (widget_gate inactiveWidgetState "hi" "A" (some "w1") none true true
      [] "" none).2 ⟨"w1", "A", false⟩ (by decide)⟩

/-!
## Claim C7: when the session is created and what gets appended
-/

/-- C7 counterexample: in the streaming path the completion-model call
strictly precedes the session insert in the event trace; a failed completion
call therefore leaves no session at all — the user's turn is not persisted;
and in the streaming path with a supplied session id only the assistant turn
is appended, not the user's. -/
theorem session_created_after_completion :
    (chatAction activeWidgetState "hi" "A" (some "w1") none true true ["ok"] ""
        (some "n1")).1
      = [ChatEvent.widgetLookupEv, ChatEvent.retrievalCallEv,
         ChatEvent.retrievalCallEv, ChatEvent.completionCallEv,
         ChatEvent.sessionInsertEv, ChatEvent.sentinelEmitEv "n1",
         ChatEvent.tokenEmitEv "ok", ChatEvent.sessionAppendEv]
    ∧ (chatAction activeWidgetState "hi" "A" (some "w1") none true false [] ""
        (some "n1")).2.1.chat_sessions = []
    ∧ (chatAction activeWidgetState "hi" "A" (some "w1") none true false [] ""
        (some "n1")).2.2 = ChatOutcome.upstreamError
    ∧ (chatAction suppliedSessionState "hi" "A" (some "w1") (some "s1") true true
        ["ok"] "" none).2.1.chat_sessions
      = [⟨"s1", "A", some "w1", [⟨"assistant", "ok"⟩]⟩] := by
  decide

theorem updateSessionWithResponse_fresh (kb : List KnowledgeBaseRow)
    (chunks : List KnowledgeBaseChunkRow) (wc : List WidgetConfigRow)
    (l : List ChatSessionRow) (new : ChatSessionRow) (resp : String)
    (hfresh : ∀ s ∈ l, s.id ≠ new.id) :
    updateSessionWithResponse ⟨kb, chunks, l ++ [new], wc⟩ new.id resp
      = ⟨kb, chunks,
         l ++ [{ new with messages := new.messages ++ [⟨"assistant", resp⟩] }],
         wc⟩ := by
  have hfilter : (l ++ [new]).filter (fun s => s.id == new.id) = [new] := by
    rw [List.filter_append]
    have h1 : l.filter (fun s => s.id == new.id) = [] := by
      rw [List.filter_eq_nil_iff]
      intro s hs
      simp [hfresh s hs]
    rw [h1]
    simp
  have hfs : findSingle (fun s => s.id == new.id) (l ++ [new]) = some new := by
    unfold findSingle
    rw [hfilter]
  unfold updateSessionWithResponse
  rw [hfs]
  have hmap : (l ++ [new]).map (fun s =>
      if s.id == new.id then
        { s with messages := s.messages ++ [⟨"assistant", resp⟩] }
      else s)
      = l ++ [{ new with messages := new.messages ++ [⟨"assistant", resp⟩] }] := by
    rw [List.map_append]
    congr 1
    · conv_rhs => rw [← List.map_id l]
      apply List.map_congr_left
      intro s hs
      simp [hfresh s hs]
    · simp
  simp only [hmap]

/-- C7 (amended): in the streaming path a new session (carrying the user
turn) is created only after the completion-model call has been issued,
though before any token is forwarded, and the assistant turn is appended at
stream end when the accumulated text is non-blank; in the non-streaming path
a new session is created only after a successful completion, with user and
assistant turns written together; when a session id is supplied, the
non-streaming path appends user then assistant in order, while the streaming
path appends only the assistant turn. -/
theorem chat_session_persistence (σ : DBState) (message clientId : String)
    (widgetId : Option String) (cfg : WidgetConfigRow)
    (hm : message ≠ "") (hc : clientId ≠ "")
    (hw : chatWidgetLookup σ clientId widgetId = some cfg) :
    (∀ nid tokens,
      (chatAction σ message clientId widgetId none true true tokens ""
          (some nid)).1
        = [ChatEvent.widgetLookupEv, ChatEvent.retrievalCallEv,
           ChatEvent.retrievalCallEv, ChatEvent.completionCallEv,
           ChatEvent.sessionInsertEv, ChatEvent.sentinelEmitEv nid]
          ++ tokens.map ChatEvent.tokenEmitEv
          ++ (if jsTrim (String.join tokens) ≠ ""
              then [ChatEvent.sessionAppendEv] else []))
    ∧ (∀ nid tokens, (∀ s ∈ σ.chat_sessions, s.id ≠ nid) →
        (chatAction σ message clientId widgetId none true true tokens ""
            (some nid)).2.1.chat_sessions
          = σ.chat_sessions
            ++ [⟨nid, clientId, widgetId,
                 ⟨"user", message⟩ ::
                   (if jsTrim (String.join tokens) ≠ ""
                    then [⟨"assistant", String.join tokens⟩] else [])⟩])
    ∧ (∀ nid response,
        (chatAction σ message clientId widgetId none false true [] response
            (some nid)).2.1.chat_sessions
          = σ.chat_sessions
            ++ [⟨nid, clientId, widgetId,
                 [⟨"user", message⟩, ⟨"assistant", response⟩]⟩])
    ∧ (∀ sid response s,
        findSingle (fun t => t.id == sid) σ.chat_sessions = some s →
        (chatAction σ message clientId widgetId (some sid) false true []
            response none).2.1.chat_sessions
          = σ.chat_sessions.map (fun t =>
              if t.id == sid then
                { t with messages := t.messages
                    ++ [⟨"user", message⟩, ⟨"assistant", response⟩] }
              else t)) := by
  have hb : (message == "" || clientId == "") = false := by simp [hm, hc]
  refine ⟨?_, ?_, ?_, ?_⟩
  · intro nid tokens
    unfold chatAction
    rw [hb, hw]
    simp
  · intro nid tokens hfresh
    unfold chatAction
    rw [hb, hw]
    by_cases hjs : jsTrim (String.join tokens) ≠ ""
    · have := updateSessionWithResponse_fresh σ.knowledge_base
        σ.knowledge_base_chunks σ.widget_configs σ.chat_sessions
        ⟨nid, clientId, widgetId, [⟨"user", message⟩]⟩ (String.join tokens)
        (by intro s hs; exact hfresh s hs)
      simp [hjs, this]
    · simp at hjs
      simp [hjs]
  · intro nid response
    unfold chatAction
    rw [hb, hw]
    simp
  · intro sid response s hfind
    unfold chatAction
    rw [hb, hw]
    simp [hfind]

/-- Witness for the amended C7: concrete new-session and supplied-session
non-streaming turns. -/
theorem chat_session_persistence_witness :
    ((chatAction activeWidgetState "hi" "A" (some "w1") none false true []
        "resp" (some "n1")).2.1.chat_sessions
      = activeWidgetState.chat_sessions
        ++ [⟨"n1", "A", some "w1", [⟨"user", "hi"⟩, ⟨"assistant", "resp"⟩]⟩])
    ∧ ((chatAction suppliedSessionState "hi" "A" (some "w1") (some "s1") false
        true [] "resp" none).2.1.chat_sessions
      = suppliedSessionState.chat_sessions.map (fun t =>
          if t.id == "s1" then
            { t with messages := t.messages
                ++ [⟨"user", "hi"⟩, ⟨"assistant", "resp"⟩] }
          else t)) :=
  ⟨(chat_session_persistence activeWidgetState "hi" "A" (some "w1")
      ⟨"w1", "A", true⟩ (by decide) (by decide) (by decide)).2.2.1 "n1" "resp",
   (chat_session_persistence suppliedSessionState "hi" "A" (some "w1")
      ⟨"w1", "A", true⟩ (by decide) (by decide) (by decide)).2.2.2 "s1" "resp"
      ⟨"s1", "A", some "w1", []⟩ (by decide)⟩

/-!
## Claim C1: tenant scoping
-/

/-- C1 counterexample: a streaming chat request under tenant `A` that
supplies tenant `B`'s session id appends the assistant turn to `B`'s
session: `updateSessionWithResponse` reads and updates the session by id
alone, with no tenant filter, so the write crosses the tenant boundary. -/
theorem cross_tenant_session_write :
    (crossTenantState.chat_sessions.map (fun s => s.client_id)) = ["B"]
    ∧ (chatAction crossTenantState "hi" "A" (some "w1") (some "s1") true true
        ["answer"] "" none).2.1.chat_sessions
      = [⟨"s1", "B", some "w0",
          [⟨"user", "old question"⟩, ⟨"assistant", "answer"⟩]⟩]
    ∧ ("A" : String) ≠ "B"
    ∧ updateSessionWithResponse crossTenantState "s1" "answer"
      = ⟨[], [], [⟨"s1", "B", some "w0",
          [⟨"user", "old question"⟩, ⟨"assistant", "answer"⟩]⟩],
         [⟨"w1", "A", true⟩]⟩ := by
  decide

set_option maxHeartbeats 1600000 in
/-- The chunk table after an upload is either untouched or extended by
exactly the freshly embedded chunk rows of this document. -/
theorem uploadAction_chunkTable (embed : Text → Option (List ℚ)) (σ : DBState)
    (c fn ft : String) (fs : Nat) (did : String) (cids : Nat → String)
    (dOk cOk eOk : Bool) (pp : Option (List Text)) (tc : Text) :
    ((uploadAction embed σ c fn ft fs did cids dOk cOk eOk pp
        tc).1).knowledge_base_chunks = σ.knowledge_base_chunks
    ∨ ((uploadAction embed σ c fn ft fs did cids dOk cOk eOk pp
        tc).1).knowledge_base_chunks
      = σ.knowledge_base_chunks
        ++ (splitTextIntoChunks (extractTextFromFile pp fn ft tc) 1000).enum.map
            (fun p => (⟨cids p.1, did, c, p.2, p.1, (embed p.2).getD []⟩ :
              KnowledgeBaseChunkRow)) := by
  simp only [uploadAction]
  split_ifs <;> first | exact Or.inl rfl | exact Or.inr rfl

theorem mem_uploadRows {embed : Text → Option (List ℚ)} {did c : String}
    {cids : Nat → String} {chunks : List Text} {ch : KnowledgeBaseChunkRow}
    (h : ch ∈ chunks.enum.map (fun p =>
        (⟨cids p.1, did, c, p.2, p.1, (embed p.2).getD []⟩ :
          KnowledgeBaseChunkRow))) :
    ch.client_id = c := by
  obtain ⟨p, hp, hrow⟩ := List.mem_map.mp h
  rw [← hrow]

/-- C1 (amended): the chunk similarity search, the document similarity
search, the widget lookups, the session read of the chat-history loader and
the ingestion writes are all tenant-scoped — a search issued under one
tenant only ever returns rows carrying that tenant's id, and ingestion only
writes rows tagged with the uploader's tenant — but the session-append paths
filter by session id alone, so they can cross tenants (see the
counterexample). -/
theorem tenant_scoping_of_core_queries :
    (∀ dist chunks c q θ k ch,
        ch ∈ search_knowledge_base_chunks dist chunks c q θ k →
        ch.client_id = c)
    ∧ (∀ dist kb c q θ k r, r ∈ search_knowledge_base dist kb c q θ k →
        ∃ row, row ∈ kb ∧ row.client_id = c
          ∧ r = ⟨row.content, row.filename, 1 - dist row.embedding q⟩)
    ∧ (∀ σ c w cfg, chatWidgetLookup σ c w = some cfg → cfg.client_id = c)
    ∧ (∀ σ wid c cfg, widgetPublicLookup σ wid c = some cfg →
        cfg.client_id = c ∧ cfg.is_active = true)
    ∧ (∀ σ sid c s, getSessionForClient σ sid c = some s → s.client_id = c)
    ∧ (∀ embed σ c fn ft fs did cids dOk cOk eOk pp tc ch,
        ch ∈ ((uploadAction embed σ c fn ft fs did cids dOk cOk eOk pp
            tc).1).knowledge_base_chunks →
        ch ∈ σ.knowledge_base_chunks ∨ ch.client_id = c) := by
  refine ⟨?_, ?_, ?_, ?_, ?_, ?_⟩
  · intro dist chunks c q θ k ch h
    have h1 := List.mem_of_mem_take h
    rw [mem_sortByKeyDesc] at h1
    have hcond := (List.mem_filter.mp h1).2
    simp only [Bool.and_eq_true, beq_iff_eq] at hcond
    exact hcond.1
  · intro dist kb c q θ k r h
    have h1 := List.mem_of_mem_take h
    rw [mem_sortByKeyDesc] at h1
    obtain ⟨row, hrow, hr⟩ := List.mem_map.mp h1
    have hcond := (List.mem_filter.mp hrow).2
    simp only [Bool.and_eq_true, beq_iff_eq] at hcond
    exact ⟨row, (List.mem_filter.mp hrow).1, hcond.1, hr.symm⟩
  · intro σ c w cfg h
    have := (findSingle_some h).2
    simp only [Bool.and_eq_true, beq_iff_eq] at this
    exact this.1
  · intro σ wid c cfg h
    have := (findSingle_some h).2
    simp only [Bool.and_eq_true, beq_iff_eq] at this
    exact ⟨this.1.2, this.2⟩
  · intro σ sid c s h
    have := (findSingle_some h).2
    simp only [Bool.and_eq_true, beq_iff_eq] at this
    exact this.2
  · intro embed σ c fn ft fs did cids dOk cOk eOk pp tc ch hch
    rcases uploadAction_chunkTable embed σ c fn ft fs did cids dOk cOk eOk pp tc
      with hEq | hEq
    · rw [hEq] at hch
      exact Or.inl hch
    · rw [hEq] at hch
      rcases List.mem_append.mp hch with h | h
      · exact Or.inl h
      · exact Or.inr (mem_uploadRows h)

/-- Witness for the amended C1: concrete tenant-scoped lookups. -/
theorem tenant_scoping_witness :
    (⟨"c1", "d1", "A", "x".data, 0, []⟩ : KnowledgeBaseChunkRow).client_id = "A"
    ∧ (⟨"w1", "A", true⟩ : WidgetConfigRow).client_id = "A"
    ∧ (⟨"s1", "A", some "w1", []⟩ : ChatSessionRow).client_id = "A" :=
  ⟨tenant_scoping_of_core_queries.1 (fun _ _ => 0)
      [⟨"c1", "d1", "A", "x".data, 0, []⟩] "A" [] 0 5
      ⟨"c1", "d1", "A", "x".data, 0, []⟩
      (by simp [search_knowledge_base_chunks, sortByKeyDesc, insertByKeyDesc]),
   tenant_scoping_of_core_queries.2.2.1 activeWidgetState "A" (some "w1")
      ⟨"w1", "A", true⟩ (by decide),
   tenant_scoping_of_core_queries.2.2.2.2.1 suppliedSessionState "s1" "A"
      ⟨"s1", "A", some "w1", []⟩ (by decide)⟩

/-!
## Claim C8: PDF extraction failure handling
-/

/-- C8 counterexample: a PDF whose extraction throws yields the placeholder
success string, and a PDF whose extracted text is empty yields the bare
placeholder; both are non-blank, so the upload guard passes and the pipeline
chunks and indexes the substitute content. -/
theorem pdf_extraction_failure_not_signalled :
    extractTextFromFile none "doc.pdf" "application/pdf" []
        = "Content from doc.pdf (PDF extraction failed)".data
    ∧ extractTextFromFile (some [[]]) "doc.pdf" "application/pdf" []
        = "Content from doc.pdf".data
    ∧ (uploadAction (fun _ => some [0]) ⟨[], [], [], []⟩ "A" "doc.pdf"
        "application/pdf" 4 "d1" (fun _ => "c1") true true true none []).2
      = UploadOutcome.completedDoc "d1" "doc.pdf" 1
    ∧ ((uploadAction (fun _ => some [0]) ⟨[], [], [], []⟩ "A" "doc.pdf"
        "application/pdf" 4 "d1" (fun _ => "c1") true true true none
        []).1).knowledge_base_chunks.map (fun ch => ch.content)
      = ["Content from doc.pdf (PDF extraction failed)".data] := by
  decide

/-- C8 (amended): PDF extraction failure is not signalled as a failure:
`extractTextFromFile` returns the placeholder mentioning the filename as an
ordinary success value, and a zero-length extraction likewise yields a
placeholder; the placeholders are never blank, so the upload handler's
empty-text guard does not fire and the pipeline proceeds to chunking and
indexing with the substitute content. -/
theorem pdf_placeholder_proceeds (fileName : String) (textContent : Text)
    (pages : List Text)
    (hpages : List.intercalate "\n\n".data pages = []) :
    extractTextFromFile none fileName "application/pdf" textContent
        = ("Content from " ++ fileName ++ " (PDF extraction failed)").data
    ∧ extractTextFromFile (some pages) fileName "application/pdf" textContent
        = ("Content from " ++ fileName).data
    ∧ (extractTextFromFile none fileName "application/pdf" textContent).all
        Char.isWhitespace = false
    ∧ (∀ (embed : Text → Option (List ℚ)) (σ : DBState)
        (clientId : String) (fileSize : Nat) (documentId : String)
        (chunkIds : Nat → String),
        (uploadAction embed σ clientId fileName "application/pdf" fileSize
          documentId chunkIds true true true none textContent).2
            ≠ UploadOutcome.errorEmpty
        ∧ (uploadAction embed σ clientId fileName "application/pdf" fileSize
            documentId chunkIds true true true none textContent).2
            ≠ UploadOutcome.errorExtract
        ∧ (uploadAction embed σ clientId fileName "application/pdf" fileSize
            documentId chunkIds true true true none textContent).2
            ≠ UploadOutcome.errorNoChunks) := by
  have hext : extractTextFromFile none fileName "application/pdf" textContent
      = ("Content from " ++ fileName ++ " (PDF extraction failed)").data := rfl
  have hext0 : extractTextFromFile (some pages) fileName "application/pdf"
      textContent
      = (if (List.intercalate "\n\n".data pages == []) = true
         then ("Content from " ++ fileName).data
         else List.intercalate "\n\n".data pages) := rfl
  have hplaceholder :
      (("Content from " ++ fileName ++ " (PDF extraction failed)").data).all
        Char.isWhitespace = false := by
    rw [String.data_append, String.data_append, List.all_append,
      List.all_append]
    have h13 : ("Content from ".data).all Char.isWhitespace = false := by decide
    rw [h13]
    simp
  have hlen : (("Content from " ++ fileName
      ++ " (PDF extraction failed)").data).length > 0 := by
    rw [String.data_append, String.data_append, List.length_append,
      List.length_append]
    have : ("Content from ".data).length = 13 := by decide
    omega
  refine ⟨hext, by rw [hext0, hpages]; simp, by rw [hext]; exact hplaceholder, ?_⟩
  intro embed σ clientId fileSize documentId chunkIds
  have hvalid : isValidFileType "application/pdf" = true := by decide
  have hchunks : ((splitTextIntoChunks (extractTextFromFile none fileName
      "application/pdf" textContent) 1000).length == 0) = false := by
    rw [hext, length_splitTextIntoChunks (show (0 : Nat) < 1000 by omega)]
    rw [beq_eq_false_iff_ne]
    have h1 : 1 ≤ ((("Content from " ++ fileName
        ++ " (PDF extraction failed)").data).length + 1000 - 1) / 1000 :=
      (Nat.le_div_iff_mul_le (by omega)).mpr (by omega)
    omega
  have key : ∀ (P : UploadOutcome → Prop),
      P UploadOutcome.errorTooBig → P UploadOutcome.errorEmbedding →
      (∀ n, P (UploadOutcome.completedDoc documentId fileName n)) →
      P (uploadAction embed σ clientId fileName "application/pdf" fileSize
          documentId chunkIds true true true none textContent).2 := by
    intro P hTooBig hEmb hDone
    simp only [uploadAction]
    split_ifs <;>
      first
        | exact hTooBig
        | exact hEmb
        | exact hDone _
        | simp_all
  exact ⟨key (fun o => o ≠ UploadOutcome.errorEmpty) (by simp) (by simp)
      (fun n => by simp),
    key (fun o => o ≠ UploadOutcome.errorExtract) (by simp) (by simp)
      (fun n => by simp),
    key (fun o => o ≠ UploadOutcome.errorNoChunks) (by simp) (by simp)
      (fun n => by simp)⟩

/-- Witness for the amended C8 at a concrete file name and page list. -/
theorem pdf_placeholder_proceeds_witness :
    List.intercalate "\n\n".data ([] : List Text) = []
    ∧ extractTextFromFile none "doc.pdf" "application/pdf" "x".data
        = ("Content from " ++ "doc.pdf" ++ " (PDF extraction failed)").data :=
  ⟨by decide,
   (pdf_placeholder_proceeds "doc.pdf" "x".data [] (by decide)).1⟩

/-!
## Claim C9: document deletion
-/

theorem findSingle_eq_filter {α : Type} {p : α → Bool} {l : List α} {x : α}
    (h : findSingle p l = some x) : l.filter p = [x] := by
  unfold findSingle at h
  split at h
  · next y hf =>
      have hy : y = x := by injection h
      rw [← hy]
      exact hf
  · cases h

/-- C9 counterexample: deletion is not atomic.  With one document and its one
chunk, a route delete whose chunk-delete statement succeeds but whose
document-delete statement fails leaves the document row present with zero of
its chunks — a partial deletion visible in the persisted state; and the
library's `deleteDocument` reports success while leaving the chunk rows
untouched, since it deletes only from the document table and the
repository's schema declares no chunk table, hence no cascade. -/
theorem delete_not_atomic :
    (routeDeleteAction deleteTestState "A" "f.txt" true false).2
        = DeleteOutcome.docDeleteError
    ∧ (routeDeleteAction deleteTestState "A" "f.txt" true false).1.knowledge_base
        = [⟨"d1", "A", "f.txt", "x".data, [], "completed"⟩]
    ∧ (routeDeleteAction deleteTestState "A" "f.txt" true
        false).1.knowledge_base_chunks = []
    ∧ (deleteDocument deleteTestState "A" "f.txt" true).2 = true
    ∧ (deleteDocument deleteTestState "A" "f.txt" true).1.knowledge_base = []
    ∧ (deleteDocument deleteTestState "A" "f.txt" true).1.knowledge_base_chunks
        = [⟨"c1", "d1", "A", "x".data, 0, []⟩] := by
  decide

/-- C9 (amended): when the route's delete reports success, the deletion is
complete — no document row for the (tenant, filename) pair remains and no
chunk row of the resolved document remains for that tenant; but the deletion
runs as two separate statements, so a failure between them leaves a partial
state (see the counterexample), and the library's `deleteDocument` removes
only document rows. -/
theorem routeDelete_success_removes_all (σ : DBState)
    (clientId fileName : String) (chunkDelOk docDelOk : Bool)
    (h : (routeDeleteAction σ clientId fileName chunkDelOk docDelOk).2
        = DeleteOutcome.deleted) :
    ∃ doc, findSingle (fun d => d.filename == fileName
        && d.client_id == clientId) σ.knowledge_base = some doc
      ∧ (∀ d ∈ (routeDeleteAction σ clientId fileName chunkDelOk
            docDelOk).1.knowledge_base,
          ¬ (d.filename = fileName ∧ d.client_id = clientId))
      ∧ (∀ ch ∈ (routeDeleteAction σ clientId fileName chunkDelOk
            docDelOk).1.knowledge_base_chunks,
          ¬ (ch.document_id = doc.id ∧ ch.client_id = clientId)) := by
  rcases hfind : findSingle (fun d => d.filename == fileName
      && d.client_id == clientId) σ.knowledge_base with _ | doc
  · exfalso
    unfold routeDeleteAction at h
    rw [hfind] at h
    simp at h
  · cases chunkDelOk with
    | false =>
        exfalso
        unfold routeDeleteAction at h
        rw [hfind] at h
        simp at h
    | true =>
        cases docDelOk with
        | false =>
            exfalso
            unfold routeDeleteAction at h
            rw [hfind] at h
            simp at h
        | true =>
            have hres : routeDeleteAction σ clientId fileName true true
                = ({ σ with
                      knowledge_base_chunks :=
                        σ.knowledge_base_chunks.filter (fun ch =>
                          ¬ (ch.document_id == doc.id
                              && ch.client_id == clientId)),
                      knowledge_base :=
                        σ.knowledge_base.filter (fun d =>
                          ¬ (d.id == doc.id && d.client_id == clientId)) },
                   DeleteOutcome.deleted) := by
              unfold routeDeleteAction
              rw [hfind]
              rfl
            refine ⟨doc, hfind, ?_, ?_⟩
            · intro d hd hdprop
              rw [hres] at hd
              have hd1 := (List.mem_filter.mp hd).1
              have hd2 := (List.mem_filter.mp hd).2
              simp only [decide_eq_true_eq, Bool.and_eq_true, beq_iff_eq]
                at hd2
              have hmem : d ∈ σ.knowledge_base.filter (fun d =>
                  d.filename == fileName && d.client_id == clientId) :=
                List.mem_filter.mpr ⟨hd1, by
                  simp [hdprop.1, hdprop.2]⟩
              rw [findSingle_eq_filter hfind] at hmem
              have hd_eq : d = doc := by
                cases hmem with
                | head => rfl
                | tail _ hmem => cases hmem
              exact hd2 ⟨by rw [hd_eq], hdprop.2⟩
            · intro ch hch hchprop
              rw [hres] at hch
              have hch2 := (List.mem_filter.mp hch).2
              simp only [decide_eq_true_eq, Bool.and_eq_true, beq_iff_eq]
                at hch2
              exact hch2 ⟨hchprop.1, hchprop.2⟩

/-- Witness for the amended C9: a concrete successful deletion removes the
document and its chunk. -/
theorem routeDelete_success_removes_all_witness :
    ∃ doc, findSingle (fun d => d.filename == "f.txt" && d.client_id == "A")
        deleteTestState.knowledge_base = some doc
      ∧ (∀ d ∈ (routeDeleteAction deleteTestState "A" "f.txt" true
            true).1.knowledge_base,
          ¬ (d.filename = "f.txt" ∧ d.client_id = "A"))
      ∧ (∀ ch ∈ (routeDeleteAction deleteTestState "A" "f.txt" true
            true).1.knowledge_base_chunks,
          ¬ (ch.document_id = doc.id ∧ ch.client_id = "A")) :=
  routeDelete_success_removes_all deleteTestState "A" "f.txt" true true
    (by decide)

end ChatAI
